import Mathlib

/-!
Shallow embedding of the proof-of-work record of
`base_layer/core/src/proof_of_work/proof_of_work.rs`: the `ProofOfWork`
struct, the accumulation engine (`new_from_difficulty`, `add_difficulty`),
the partial-order comparator (`partial_cmp`), the total-work helper
(`total_accumulated_difficulty`), the canonical encoder (`to_bytes`) and
the achieved-difficulty dispatcher (`achieved_difficulty`).

The supporting types `Difficulty`, `PowAlgorithm`, `PowError` and
`BlockHeader` live outside the sampled sources and are modelled from the
spec; the per-algorithm difficulty providers are external collaborators and
appear as function parameters of the dispatcher.
-/

namespace Tari

/-- Modelled from the spec: `Difficulty` (proof_of_work/difficulty.rs, not in the
sampled sources) is a 64-bit unsigned magnitude with total order and addition;
addition overflow is a fatal precondition violation, never silent wrapping, so
values are natural numbers and the 64-bit bound is a hypothesis where the width
matters. -/
abbrev Difficulty := Nat

/-- Modelled from the spec: `PowAlgorithm` (not in the sampled sources) is the
closed enumeration of the three supported mining algorithms, in the order the
sampled code matches them: Monero, Blake, Sha3. -/
inductive PowAlgorithm where
  | Monero
  | Blake
  | Sha3
  deriving DecidableEq

/-- Modelled from the spec: each algorithm variant's fixed byte discriminant
(the value of `pow_algo as u8`); Blake's discriminant is 1, the variants are
numbered in declaration order. -/
def PowAlgorithm.discriminant : PowAlgorithm → Nat
  | .Monero => 0
  | .Blake => 1
  | .Sha3 => 2

/-- The outcome type of `ProofOfWork::partial_cmp` (`enum Ordering` of the
source, proof_of_work.rs lines 42-47). -/
inductive Ordering where
  | GreaterThan
  | LessThan
  | Equal
  | Indeterminate
  deriving DecidableEq

/-- The `ProofOfWork` struct (proof_of_work.rs lines 52-64): two per-algorithm
accumulators, the block's target difficulty, the algorithm tag and the opaque
auxiliary byte payload. The three difficulty fields hold `Difficulty` values;
they are declared at the unfolded type `Nat` so arithmetic tactics read them
directly. Bytes are naturals below 256. -/
structure ProofOfWork where
  accumulated_monero_difficulty : Nat
  accumulated_blake_difficulty : Nat
  target_difficulty : Nat
  pow_algo : PowAlgorithm
  pow_data : List Nat
  deriving DecidableEq

/-- `ProofOfWork::new_from_difficulty` (proof_of_work.rs lines 128-150): the
accumulator of the predecessor's algorithm grows by `added_difficulty` (Sha3
adds into the blake slot), the other fields are carried over. -/
def ProofOfWork.new_from_difficulty (pow : ProofOfWork)
    (added_difficulty : Difficulty) : ProofOfWork :=
  let mb : Difficulty × Difficulty :=
    match pow.pow_algo with
    | .Monero =>
        (pow.accumulated_monero_difficulty + added_difficulty,
          pow.accumulated_blake_difficulty)
    | .Blake =>
        (pow.accumulated_monero_difficulty,
          pow.accumulated_blake_difficulty + added_difficulty)
    | .Sha3 =>
        (pow.accumulated_monero_difficulty,
          pow.accumulated_blake_difficulty + added_difficulty)
  { accumulated_monero_difficulty := mb.1
    accumulated_blake_difficulty := mb.2
    target_difficulty := pow.target_difficulty
    pow_algo := pow.pow_algo
    pow_data := pow.pow_data }

/-- `ProofOfWork::add_difficulty` (proof_of_work.rs lines 120-124): overwrite
the caller's two accumulators with those of `new_from_difficulty prev
added_difficulty`; the mutation of `&mut self` is embedded as returning the
updated record. -/
def ProofOfWork.add_difficulty (self prev : ProofOfWork)
    (added_difficulty : Difficulty) : ProofOfWork :=
  let pow := ProofOfWork.new_from_difficulty prev added_difficulty
  { self with
      accumulated_blake_difficulty := pow.accumulated_blake_difficulty
      accumulated_monero_difficulty := pow.accumulated_monero_difficulty }

/-- `ProofOfWork::partial_cmp` (proof_of_work.rs lines 154-170): the literal
if-chain over the two accumulator dimensions. -/
def ProofOfWork.partial_cmp (self other : ProofOfWork) : Ordering :=
  if self.accumulated_blake_difficulty = other.accumulated_blake_difficulty ∧
      self.accumulated_monero_difficulty = other.accumulated_monero_difficulty then
    .Equal
  else if self.accumulated_blake_difficulty ≤ other.accumulated_blake_difficulty ∧
      self.accumulated_monero_difficulty ≤ other.accumulated_monero_difficulty then
    .LessThan
  else if self.accumulated_blake_difficulty ≥ other.accumulated_blake_difficulty ∧
      self.accumulated_monero_difficulty ≥ other.accumulated_monero_difficulty then
    .GreaterThan
  else
    .Indeterminate

/-- `ProofOfWork::total_accumulated_difficulty` (proof_of_work.rs lines
114-116): the product of the two accumulators, taken in 128-bit unsigned
machine arithmetic (`u128` multiplication reduces modulo `2 ^ 128`). -/
def ProofOfWork.total_accumulated_difficulty (self : ProofOfWork) : Nat :=
  self.accumulated_monero_difficulty * self.accumulated_blake_difficulty % 2 ^ 128

/-- `BufMut::put_u8`: append the low byte of a value to the buffer. -/
def put_u8 (buf : List Nat) (v : Nat) : List Nat :=
  buf ++ [v % 256]

/-- The byte string a little-endian integer write produces: `k` bytes, lowest
first, each the remainder by 256 of the value repeatedly divided by 256. -/
def leBytes : Nat → Nat → List Nat
  | 0, _ => []
  | k + 1, v => v % 256 :: leBytes k (v / 256)

/-- `BufMut::put_u64_le`: append the eight little-endian bytes of a 64-bit
value to the buffer. -/
def put_u64_le (buf : List Nat) (v : Nat) : List Nat :=
  buf ++ leBytes 8 v

/-- `BufMut::put_slice`: append raw bytes to the buffer. -/
def put_slice (buf : List Nat) (s : List Nat) : List Nat :=
  buf ++ s

/-- `ProofOfWork::to_bytes` (proof_of_work.rs lines 173-180): discriminant
byte, then both accumulators as 8 little-endian bytes each, then the raw
`pow_data`. -/
def ProofOfWork.to_bytes (self : ProofOfWork) : List Nat :=
  put_slice
    (put_u64_le
      (put_u64_le
        (put_u8 [] self.pow_algo.discriminant)
        self.accumulated_monero_difficulty)
      self.accumulated_blake_difficulty)
    self.pow_data

/-- Modelled from the spec: the distinct typed proof-of-work error a difficulty
provider may fail with (`PowError`, not in the sampled sources); the payload
keeps distinct failures distinguishable. -/
inductive PowError where
  | providerError : Nat → PowError
  deriving DecidableEq

/-- Modelled from the spec: a block header (`BlockHeader`, not in the sampled
sources) exposes its embedded proof-of-work record; the remaining header
fields are interpreted only by the external providers and are kept as an
opaque payload. -/
structure BlockHeader where
  pow : ProofOfWork
  rest : List Nat
  deriving DecidableEq

/-- `ProofOfWork::achieved_difficulty` (proof_of_work.rs lines 103-109): route
the header to the provider of its declared algorithm. The three external
providers are parameters: `monero_difficulty` is fallible (the source applies
the question-mark operator to it), `blake_difficulty` and `sha3_difficulty`
return a difficulty directly and are wrapped in `Ok`. -/
def ProofOfWork.achieved_difficulty
    (monero_difficulty : BlockHeader → Except PowError Difficulty)
    (blake_difficulty sha3_difficulty : BlockHeader → Difficulty)
    (header : BlockHeader) : Except PowError Difficulty :=
  match header.pow.pow_algo with
  | .Monero =>
      match monero_difficulty header with
      | .ok d => .ok d
      | .error e => .error e
  | .Blake => .ok (blake_difficulty header)
  | .Sha3 => .ok (sha3_difficulty header)

/-- The accumulator of the record that holds work of the given algorithm, as
`new_from_difficulty` fixes it: Monero uses the monero slot, Blake and Sha3
both use the blake slot. -/
def ProofOfWork.accumulatedDifficultyFor (self : ProofOfWork) :
    PowAlgorithm → Difficulty
  | .Monero => self.accumulated_monero_difficulty
  | .Blake => self.accumulated_blake_difficulty
  | .Sha3 => self.accumulated_blake_difficulty

/-- The index of the accumulator slot an algorithm accumulates into: slot 0 is
the monero accumulator, slot 1 the blake accumulator (shared by Blake and
Sha3). -/
def PowAlgorithm.slot : PowAlgorithm → Nat
  | .Monero => 0
  | .Blake => 1
  | .Sha3 => 1

/-- The eight little-endian bytes of a 64-bit value as the spec lays them out:
byte `i` is the value shifted right by `8 * i` bits, reduced modulo 256. -/
def u64leLayout (v : Nat) : List Nat :=
  (List.range 8).map fun i => v / 2 ^ (8 * i) % 256

/-- Full case analysis of `partial_cmp`: each of the four outcomes holds
exactly under the stated relation between the two accumulator dimensions. -/
lemma partial_cmp_characterization (a b : ProofOfWork) :
    (a.partial_cmp b = .Equal ↔
      (a.accumulated_blake_difficulty = b.accumulated_blake_difficulty ∧
        a.accumulated_monero_difficulty = b.accumulated_monero_difficulty)) ∧
    (a.partial_cmp b = .LessThan ↔
      (a.accumulated_blake_difficulty ≤ b.accumulated_blake_difficulty ∧
        a.accumulated_monero_difficulty ≤ b.accumulated_monero_difficulty ∧
        ¬(a.accumulated_blake_difficulty = b.accumulated_blake_difficulty ∧
          a.accumulated_monero_difficulty = b.accumulated_monero_difficulty))) ∧
    (a.partial_cmp b = .GreaterThan ↔
      (a.accumulated_blake_difficulty ≥ b.accumulated_blake_difficulty ∧
        a.accumulated_monero_difficulty ≥ b.accumulated_monero_difficulty ∧
        ¬(a.accumulated_blake_difficulty = b.accumulated_blake_difficulty ∧
          a.accumulated_monero_difficulty = b.accumulated_monero_difficulty))) ∧
    (a.partial_cmp b = .Indeterminate ↔
      ((a.accumulated_blake_difficulty < b.accumulated_blake_difficulty ∧
          b.accumulated_monero_difficulty < a.accumulated_monero_difficulty) ∨
        (b.accumulated_blake_difficulty < a.accumulated_blake_difficulty ∧
          a.accumulated_monero_difficulty < b.accumulated_monero_difficulty))) := by
  unfold ProofOfWork.partial_cmp
  split_ifs with h1 h2 h3
  · exact ⟨iff_of_true rfl h1,
      iff_of_false (by decide) (fun h => h.2.2 h1),
      iff_of_false (by decide) (fun h => h.2.2 h1),
      iff_of_false (by decide) (by omega)⟩
  · exact ⟨iff_of_false (by decide) h1,
      iff_of_true rfl ⟨h2.1, h2.2, h1⟩,
      iff_of_false (by decide) (by omega),
      iff_of_false (by decide) (by omega)⟩
  · exact ⟨iff_of_false (by decide) h1,
      iff_of_false (by decide) (fun h => h2 ⟨h.1, h.2.1⟩),
      iff_of_true rfl ⟨h3.1, h3.2, h1⟩,
      iff_of_false (by decide) (by omega)⟩
  · exact ⟨iff_of_false (by decide) h1,
      iff_of_false (by decide) (fun h => h2 ⟨h.1, h.2.1⟩),
      iff_of_false (by decide) (fun h => h3 ⟨h.1, h.2.1⟩),
      iff_of_true rfl (by omega)⟩

/-- The byte string `put_u64_le` appends agrees with the spec's little-endian
layout of a 64-bit value. -/
lemma leBytes_eight (v : Nat) : leBytes 8 v = u64leLayout v := by
  simp [leBytes, u64leLayout, List.range_succ, Nat.div_div_eq_div_mul]

/-- C1, counterexample: for the record with both accumulators 0 and algorithm
Sha3, adding difficulty 1 changes the accumulator of Blake — an algorithm
other than the record's own — because Blake and Sha3 share the blake slot, so
the claim that every other algorithm's accumulator is unchanged is false. -/
theorem C1_counterexample :
    PowAlgorithm.Blake ≠ (⟨0, 0, 1, .Sha3, []⟩ : ProofOfWork).pow_algo ∧
    (ProofOfWork.new_from_difficulty ⟨0, 0, 1, .Sha3, []⟩ 1).accumulatedDifficultyFor .Blake ≠
      (⟨0, 0, 1, .Sha3, []⟩ : ProofOfWork).accumulatedDifficultyFor .Blake := by
  decide

/-- C1, amended: `new_from_difficulty` adds the difficulty to the accumulator
slot of the predecessor's algorithm and leaves the other slot unchanged, so an
algorithm's accumulator grows by the added difficulty exactly when it shares
the predecessor's algorithm's slot (Monero owns slot 0; Blake and Sha3 share
slot 1), and is unchanged otherwise. -/
theorem C1_accumulator_update_by_slot :
    ∀ (R : ProofOfWork) (M : Difficulty) (A : PowAlgorithm),
      (ProofOfWork.new_from_difficulty R M).accumulatedDifficultyFor A =
        if A.slot = R.pow_algo.slot then R.accumulatedDifficultyFor A + M
        else R.accumulatedDifficultyFor A := by
  intro R M A
  cases A <;> cases h : R.pow_algo <;>
    simp [ProofOfWork.new_from_difficulty, ProofOfWork.accumulatedDifficultyFor,
      PowAlgorithm.slot, h]

/-- C2: `partial_cmp` classifies every pair of records by the two accumulator
dimensions alone: Equal exactly when both dimensions are equal, LessThan
exactly when the left record is below-or-equal in both dimensions and the two
are not equal, GreaterThan exactly when it is above-or-equal in both
dimensions and the two are not equal, and Indeterminate exactly when one
dimension favors one record and the other dimension the other record. -/
theorem C2_partial_cmp_classification :
    ∀ a b : ProofOfWork,
      (a.partial_cmp b = .Equal ↔
        (a.accumulated_blake_difficulty = b.accumulated_blake_difficulty ∧
          a.accumulated_monero_difficulty = b.accumulated_monero_difficulty)) ∧
      (a.partial_cmp b = .LessThan ↔
        (a.accumulated_blake_difficulty ≤ b.accumulated_blake_difficulty ∧
          a.accumulated_monero_difficulty ≤ b.accumulated_monero_difficulty ∧
          ¬(a.accumulated_blake_difficulty = b.accumulated_blake_difficulty ∧
            a.accumulated_monero_difficulty = b.accumulated_monero_difficulty))) ∧
      (a.partial_cmp b = .GreaterThan ↔
        (a.accumulated_blake_difficulty ≥ b.accumulated_blake_difficulty ∧
          a.accumulated_monero_difficulty ≥ b.accumulated_monero_difficulty ∧
          ¬(a.accumulated_blake_difficulty = b.accumulated_blake_difficulty ∧
            a.accumulated_monero_difficulty = b.accumulated_monero_difficulty))) ∧
      (a.partial_cmp b = .Indeterminate ↔
        ((a.accumulated_blake_difficulty < b.accumulated_blake_difficulty ∧
            b.accumulated_monero_difficulty < a.accumulated_monero_difficulty) ∨
          (b.accumulated_blake_difficulty < a.accumulated_blake_difficulty ∧
            a.accumulated_monero_difficulty < b.accumulated_monero_difficulty))) :=
  fun a b => partial_cmp_characterization a b

/-- C3: `achieved_difficulty` routes a header to the provider of its declared
algorithm tag and returns exactly that provider's result: the Monero
provider's value or failure is passed through unchanged, and the infallible
Blake and Sha3 providers' values are returned wrapped in `Ok` — never a
substituted default. The three external providers are universally quantified
function parameters. -/
theorem C3_achieved_difficulty_dispatch :
    ∀ (mD : BlockHeader → Except PowError Difficulty)
      (bD sD : BlockHeader → Difficulty) (h : BlockHeader),
      (h.pow.pow_algo = .Monero →
        ProofOfWork.achieved_difficulty mD bD sD h = mD h) ∧
      (h.pow.pow_algo = .Blake →
        ProofOfWork.achieved_difficulty mD bD sD h = .ok (bD h)) ∧
      (h.pow.pow_algo = .Sha3 →
        ProofOfWork.achieved_difficulty mD bD sD h = .ok (sD h)) := by
  intro mD bD sD h
  refine ⟨fun ha => ?_, fun ha => ?_, fun ha => ?_⟩
  · simp only [ProofOfWork.achieved_difficulty, ha]
    cases mD h <;> rfl
  · simp only [ProofOfWork.achieved_difficulty, ha]
  · simp only [ProofOfWork.achieved_difficulty, ha]

/-- C4: `total_accumulated_difficulty`, computed with 128-bit machine
multiplication, equals the exact mathematical product of the monero and blake
accumulators whenever both fit in 64 bits — the product of two 64-bit values
never overflows the 128-bit result. -/
theorem C4_total_accumulated_product :
    ∀ R : ProofOfWork,
      R.accumulated_monero_difficulty < 2 ^ 64 →
      R.accumulated_blake_difficulty < 2 ^ 64 →
      R.total_accumulated_difficulty =
        R.accumulated_monero_difficulty * R.accumulated_blake_difficulty := by
  intro R h1 h2
  unfold ProofOfWork.total_accumulated_difficulty
  exact Nat.mod_eq_of_lt (lt_of_lt_of_le (Nat.mul_lt_mul'' h1 h2) (by norm_num))

/-- C4, witness: the record with accumulators 500 and 100 has total
accumulated difficulty exactly 500 times 100. -/
theorem C4_witness :
    ProofOfWork.total_accumulated_difficulty ⟨500, 100, 1, .Blake, []⟩ = 500 * 100 :=
  C4_total_accumulated_product ⟨500, 100, 1, .Blake, []⟩ (by norm_num) (by norm_num)

/-- C5: `to_bytes` is the discriminant byte, the eight little-endian bytes of
the monero accumulator, the eight little-endian bytes of the blake
accumulator, then the raw auxiliary bytes with no length prefix; in
particular the record with accumulators monero 65 and blake 257, algorithm
Blake and empty auxiliary data encodes to the seventeen listed bytes. -/
theorem C5_to_bytes_layout :
    (∀ R : ProofOfWork,
      R.to_bytes = R.pow_algo.discriminant ::
        (u64leLayout R.accumulated_monero_difficulty ++
          (u64leLayout R.accumulated_blake_difficulty ++ R.pow_data))) ∧
    ProofOfWork.to_bytes ⟨65, 257, 1, .Blake, []⟩ =
      [1, 65, 0, 0, 0, 0, 0, 0, 0, 1, 1, 0, 0, 0, 0, 0, 0] := by
  constructor
  · intro R
    simp only [ProofOfWork.to_bytes, put_slice, put_u64_le, put_u8, leBytes_eight]
    cases h : R.pow_algo <;> simp [PowAlgorithm.discriminant]
  · decide

/-- C6: `add_difficulty` overwrites the caller's two accumulators with those
of `new_from_difficulty prev added_difficulty` and leaves the caller's own
target difficulty, algorithm tag and auxiliary data exactly as they were. -/
theorem C6_add_difficulty_frame :
    ∀ (s prev : ProofOfWork) (M : Difficulty),
      (s.add_difficulty prev M).accumulated_monero_difficulty =
        (ProofOfWork.new_from_difficulty prev M).accumulated_monero_difficulty ∧
      (s.add_difficulty prev M).accumulated_blake_difficulty =
        (ProofOfWork.new_from_difficulty prev M).accumulated_blake_difficulty ∧
      (s.add_difficulty prev M).target_difficulty = s.target_difficulty ∧
      (s.add_difficulty prev M).pow_algo = s.pow_algo ∧
      (s.add_difficulty prev M).pow_data = s.pow_data :=
  fun _ _ _ => ⟨rfl, rfl, rfl, rfl, rfl⟩

/-- C7: `partial_cmp` is antisymmetric across its GreaterThan and LessThan
outcomes: one record compares GreaterThan to another exactly when the other
compares LessThan to it. -/
theorem C7_antisymmetry :
    ∀ a b : ProofOfWork,
      a.partial_cmp b = .GreaterThan ↔ b.partial_cmp a = .LessThan := by
  intro a b
  rw [(partial_cmp_characterization a b).2.2.1, (partial_cmp_characterization b a).2.1]
  omega

/-- C8: the comparator is intentionally not total: for the records with
accumulators monero 100, blake 0 and monero 0, blake 50 neither record
dominates the other in both dimensions, and `partial_cmp` answers
Indeterminate in both directions. -/
theorem C8_incomparable_pair :
    ¬((⟨100, 0, 1, .Blake, []⟩ : ProofOfWork).accumulated_monero_difficulty ≤
        (⟨0, 50, 1, .Blake, []⟩ : ProofOfWork).accumulated_monero_difficulty ∧
      (⟨100, 0, 1, .Blake, []⟩ : ProofOfWork).accumulated_blake_difficulty ≤
        (⟨0, 50, 1, .Blake, []⟩ : ProofOfWork).accumulated_blake_difficulty) ∧
    ¬((⟨0, 50, 1, .Blake, []⟩ : ProofOfWork).accumulated_monero_difficulty ≤
        (⟨100, 0, 1, .Blake, []⟩ : ProofOfWork).accumulated_monero_difficulty ∧
      (⟨0, 50, 1, .Blake, []⟩ : ProofOfWork).accumulated_blake_difficulty ≤
        (⟨100, 0, 1, .Blake, []⟩ : ProofOfWork).accumulated_blake_difficulty) ∧
    ProofOfWork.partial_cmp ⟨100, 0, 1, .Blake, []⟩ ⟨0, 50, 1, .Blake, []⟩ =
      .Indeterminate ∧
    ProofOfWork.partial_cmp ⟨0, 50, 1, .Blake, []⟩ ⟨100, 0, 1, .Blake, []⟩ =
      .Indeterminate := by
  decide

/-- C9: the record has only two accumulator fields for three algorithms: for a
record whose algorithm is Sha3, `new_from_difficulty` adds the difficulty to
`accumulated_blake_difficulty` — the very field a Blake record accumulates
into — and leaves `accumulated_monero_difficulty` unchanged. -/
theorem C9_sha3_shares_blake_slot :
    ∀ (R Q : ProofOfWork) (M : Difficulty),
      R.pow_algo = .Sha3 → Q.pow_algo = .Blake →
      (ProofOfWork.new_from_difficulty R M).accumulated_blake_difficulty =
          R.accumulated_blake_difficulty + M ∧
      (ProofOfWork.new_from_difficulty R M).accumulated_monero_difficulty =
          R.accumulated_monero_difficulty ∧
      (ProofOfWork.new_from_difficulty Q M).accumulated_blake_difficulty =
          Q.accumulated_blake_difficulty + M := by
  intro R Q M hR hQ
  simp [ProofOfWork.new_from_difficulty, hR, hQ]

/-- C9, witness: adding difficulty 10 to a Sha3 record with accumulators
monero 3 and blake 4 yields blake 14 and monero 3, and adding 10 to a Blake
record with blake 6 yields blake 16. -/
theorem C9_witness :
    (ProofOfWork.new_from_difficulty ⟨3, 4, 1, .Sha3, []⟩ 10).accumulated_blake_difficulty =
        4 + 10 ∧
    (ProofOfWork.new_from_difficulty ⟨3, 4, 1, .Sha3, []⟩ 10).accumulated_monero_difficulty =
        3 ∧
    (ProofOfWork.new_from_difficulty ⟨5, 6, 1, .Blake, []⟩ 10).accumulated_blake_difficulty =
        6 + 10 :=
  C9_sha3_shares_blake_slot ⟨3, 4, 1, .Sha3, []⟩ ⟨5, 6, 1, .Blake, []⟩ 10 rfl rfl

/-- C10: the outcome of `partial_cmp` depends only on the two accumulator
fields: two records with equal accumulators compare Equal whatever their
target difficulty, algorithm tag or auxiliary data, and replacing either
argument by any record with the same accumulators leaves the outcome
unchanged. -/
theorem C10_cmp_depends_only_on_accumulators :
    (∀ a b : ProofOfWork,
      a.accumulated_monero_difficulty = b.accumulated_monero_difficulty →
      a.accumulated_blake_difficulty = b.accumulated_blake_difficulty →
      a.partial_cmp b = .Equal) ∧
    (∀ a b c d : ProofOfWork,
      a.accumulated_monero_difficulty = c.accumulated_monero_difficulty →
      a.accumulated_blake_difficulty = c.accumulated_blake_difficulty →
      b.accumulated_monero_difficulty = d.accumulated_monero_difficulty →
      b.accumulated_blake_difficulty = d.accumulated_blake_difficulty →
      a.partial_cmp b = c.partial_cmp d) := by
  constructor
  · intro a b h1 h2
    simp [ProofOfWork.partial_cmp, h1, h2]
  · intro a b c d h1 h2 h3 h4
    simp only [ProofOfWork.partial_cmp, h1, h2, h3, h4]

/-- C10, witness: two records with accumulators monero 5 and blake 7 but
different target difficulty, algorithm tag and auxiliary data compare
Equal. -/
theorem C10_witness :
    ProofOfWork.partial_cmp ⟨5, 7, 1, .Blake, []⟩ ⟨5, 7, 99, .Monero, [3]⟩ =
      .Equal :=
  C10_cmp_depends_only_on_accumulators.1 ⟨5, 7, 1, .Blake, []⟩
    ⟨5, 7, 99, .Monero, [3]⟩ rfl rfl

end Tari
